import Mathlib

/-!
# Verification of the cctime daily-conversation aggregation core

Shallow embedding of the temporal aggregation core of the repository
(`src/data-loader.ts`): session segmentation with a 3-minute gap
tolerance (`calculateConversationTime`) and the daily aggregation
pipeline (`loadDailyConversationData`, pure part: date filtering,
grouping by local date, per-day summaries, descending date sort).

Timestamps are modelled as `Int` milliseconds since the Unix epoch
(JavaScript `Date.getTime()`).  The process-local timezone of
JavaScript `Date` accessors is modelled as a fixed offset `tz` in
minutes added to UTC.  File discovery, JSONL parsing and schema
validation are excluded I/O collaborators per the specification and
are not modelled; the aggregation core receives the already-parsed
entry list directly.
-/

/-- Decimal digit character, i.e. what JavaScript number-to-string
conversion emits for a single digit (`'0'` … `'9'` for `n < 10`). -/
def digitChar (n : Nat) : Char := Char.ofNat (48 + n)

/-- Fuel-indexed decimal rendering: peels one digit per step.  Any
fuel above the digit count gives the same result
(`natToDigitsAux_congr`); the fuel only makes the recursion
structural. -/
def natToDigitsAux (fuel n : Nat) : List Char :=
  match fuel with
  | 0 => []
  | fuel + 1 =>
    if n < 10 then [digitChar n]
    else natToDigitsAux fuel (n / 10) ++ [digitChar (n % 10)]

/-- Decimal rendering of a natural number as a list of characters,
modelling JavaScript `String(n)` for non-negative integers. -/
def natToDigits (n : Nat) : List Char := natToDigitsAux (n + 1) n

/-- Decimal rendering of an integer, modelling JavaScript `String(i)`
inside template literals. -/
def intToDecimal (i : Int) : String :=
  if i < 0 then "-" ++ String.mk (natToDigits (-i).toNat)
  else String.mk (natToDigits i.toNat)

/-- Two-character zero-padded decimal rendering, modelling
`String(n).padStart(2, '0')` from `formatDate`/`formatTime`. -/
def pad2 (n : Nat) : String :=
  if n < 10 then String.mk ['0', digitChar n] else String.mk (natToDigits n)

/-- Civil (year, month, day) from a count of days since 1970-01-01,
the standard civil-from-days algorithm; models the calendar fields
(`getFullYear`, `getMonth() + 1`, `getDate`) that JavaScript `Date`
exposes for the local timezone. -/
def civilFromDays (z0 : Int) : Int × Nat × Nat :=
  let z := z0 + 719468
  let era := z / 146097
  let doe := z - era * 146097
  let yoe := (doe - doe / 1460 + doe / 36524 - doe / 146096) / 365
  let y := yoe + era * 400
  let doy := doe - (365 * yoe + yoe / 4 - yoe / 100)
  let mp := (5 * doy + 2) / 153
  let d := doy - (153 * mp + 2) / 5 + 1
  let m := mp + (if mp < 10 then (3 : Int) else -9)
  (y + (if m ≤ 2 then 1 else 0), m.toNat, d.toNat)

/-- Day index (days since epoch) of a timestamp in the local timezone
modelled by the fixed offset `tz` (minutes added to UTC). -/
def localDays (tz ts : Int) : Int := (ts + tz * 60000) / 86400000

/-- `YYYY-MM-DD` rendering from calendar fields, as built by the
template literal in `formatDate` (year unpadded, month/day padded). -/
def dateString (year : Int) (month day : Nat) : String :=
  intToDecimal year ++ "-" ++ pad2 month ++ "-" ++ pad2 day

/-- `formatDate` from `src/data-loader.ts`: local calendar date of a
timestamp rendered as `YYYY-MM-DD`. -/
def formatDate (tz ts : Int) : String :=
  let c := civilFromDays (localDays tz ts)
  dateString c.1 c.2.1 c.2.2

/-- `formatTime` from `src/data-loader.ts`: local wall-clock `HH:MM`
of a timestamp. -/
def formatTime (tz ts : Int) : String :=
  let msOfDay := (ts + tz * 60000) % 86400000
  pad2 (msOfDay / 3600000).toNat ++ ":" ++ pad2 (msOfDay % 3600000 / 60000).toNat

/-- A session interval, `{ start: Date; end: Date }` in
`calculateConversationTime` (the `end` field is named `stop` because
`end` is a Lean keyword). -/
structure Session where
  start : Int
  stop : Int
deriving DecidableEq

/-- `SESSION_GAP_MS` from `calculateConversationTime`: 3 minutes. -/
def SESSION_GAP_MS : Int := 3 * 60 * 1000

/-- The segmentation loop of `calculateConversationTime`: walk the
remaining (sorted) timestamps with the current session `(s, e)` and
the closed sessions `acc`; extend the current session when the gap to
its end is at most `gap`, otherwise close it and open a new one; after
the loop the final open session is appended. -/
def segmentLoop (gap : Int) : List Int → Int → Int → List Session → List Session
  | [], s, e, acc => acc ++ [⟨s, e⟩]
  | t :: rest, s, e, acc =>
    if t - e ≤ gap then segmentLoop gap rest s t acc
    else segmentLoop gap rest t t (acc ++ [⟨s, e⟩])

/-- Session segmentation of a timestamp-sorted list: the current
session starts and ends at the first timestamp, then the loop runs
over the rest.  (`calculateConversationTime` only reaches this with at
least two entries; the `[]` case is vacuous.) -/
def segmentSessions (gap : Int) : List Int → List Session
  | [] => []
  | t :: rest => segmentLoop gap rest t t []

/-- The ascending timestamp sort `[...entries].sort((a, b) => ta - tb)`
performed by `calculateConversationTime`. -/
def sortTimestamps (l : List Int) : List Int := l.mergeSort (fun a b => a ≤ b)

/-- Sessions computed by `calculateConversationTime`: sort ascending,
then segment with the 3-minute gap. -/
def sessionsOf (l : List Int) : List Session := segmentSessions SESSION_GAP_MS (sortTimestamps l)

/-- Per-session minutes: `Math.max(1, Math.floor(durationMs / 60000))`
(integer division by a positive constant is floor division). -/
def sessionMinutes (s : Session) : Int := max 1 ((s.stop - s.start) / 60000)

/-- The duration rendering at the end of `calculateConversationTime`:
`"{m}m"` under an hour, else `"{h}h"` or `"{h}h {m}m"`. -/
def renderDuration (totalMinutes : Int) : String :=
  if totalMinutes < 60 then intToDecimal totalMinutes ++ "m"
  else
    let hours := totalMinutes / 60
    let minutes := totalMinutes % 60
    if minutes = 0 then intToDecimal hours ++ "h"
    else intToDecimal hours ++ "h " ++ intToDecimal minutes ++ "m"

/-- `calculateConversationTime` from `src/data-loader.ts`, over the
entries' timestamps: `"0m"` for no entries, `"1m"` for a single entry,
otherwise sort, segment into sessions with the 3-minute gap, sum
per-session minutes (each at least 1) and render. -/
def calculateConversationTime (entries : List Int) : String :=
  match entries with
  | [] => "0m"
  | [_] => "1m"
  | _ =>
    let sessions := sessionsOf entries
    let totalMinutes := sessions.foldl (fun acc s => acc + sessionMinutes s) 0
    renderDuration totalMinutes

/-- An entry of `allEntries` in `loadDailyConversationData`, restricted
to the fields the aggregation core reads: the parsed timestamp and the
session identifier attached from the file path.  (The other `UsageData`
payload fields are never consulted by the core.) -/
structure Entry where
  timestamp : Int
  sessionId : String
deriving DecidableEq

/-- The dash-removal applied to `formatDate(entry.timestamp)` (a global
regex replace), producing the `YYYYMMDD` comparison key used by the
date-range filter. -/
def stripDashes (s : String) : String :=
  String.mk (s.toList.filter (fun c => c != '-'))

/-- Local-date `YYYYMMDD` key of a timestamp. -/
def dateKey (tz ts : Int) : String := stripDashes (formatDate tz ts)

/-- The per-entry predicate of the date-range filter in
`loadDailyConversationData`: drop when `dateStr < since` or
`dateStr > until`, keep otherwise; an absent bound checks nothing. -/
def keepEntry (tz : Int) (sinceOpt untilOpt : Option String) (e : Entry) : Bool :=
  let ds := dateKey tz e.timestamp
  if sinceOpt.any (fun s => decide (ds < s)) then false
  else if untilOpt.any (fun u => decide (u < ds)) then false
  else true

/-- The filtering step of `loadDailyConversationData`: when neither
bound is provided the entry list is passed through unchanged, otherwise
entries outside the bounds are dropped. -/
def filterEntries (tz : Int) (sinceOpt untilOpt : Option String) (l : List Entry) : List Entry :=
  if sinceOpt.isNone && untilOpt.isNone then l
  else l.filter (keepEntry tz sinceOpt untilOpt)

/-- Insertion into the date-keyed grouping map: JavaScript `Map` keeps
keys in first-insertion order and `push` appends, so a new key goes to
the back and an existing key's list is extended at its end. -/
def addToGroup (acc : List (String × List Entry)) (d : String) (e : Entry) :
    List (String × List Entry) :=
  match acc with
  | [] => [(d, [e])]
  | (k, es) :: rest =>
    if k = d then (k, es ++ [e]) :: rest else (k, es) :: addToGroup rest d e

/-- The grouping step of `loadDailyConversationData`: partition the
filtered entries by local date, preserving first-seen date order. -/
def groupByDate (tz : Int) (l : List Entry) : List (String × List Entry) :=
  l.foldl (fun acc e => addToGroup acc (formatDate tz e.timestamp) e) []

/-- `Array.from(new Set(...))`: distinct values in first-occurrence
order. -/
def uniqueKeepFirst (l : List String) : List String :=
  l.foldl (fun acc s => if s ∈ acc then acc else acc ++ [s]) []

/-- A `DailyConversation` summary (`src/types.ts`). -/
structure DailyConversation where
  date : String
  firstMessageTime : String
  lastMessageTime : String
  estimatedConversationTime : String
  messageCount : Nat
  sessionIds : List String
deriving DecidableEq

/-- The per-date summary body of `loadDailyConversationData`: skip an
empty group (the `entries.length === 0` guard), otherwise sort the
group by timestamp and assemble the `DailyConversation` record. -/
def summarize (tz : Int) (date : String) (es : List Entry) : Option DailyConversation :=
  if es.isEmpty then none
  else
    let sorted := es.mergeSort (fun a b => a.timestamp ≤ b.timestamp)
    some {
      date := date
      firstMessageTime := formatTime tz ((sorted.head?.map Entry.timestamp).getD 0)
      lastMessageTime := formatTime tz ((sorted.getLast?.map Entry.timestamp).getD 0)
      estimatedConversationTime := calculateConversationTime (sorted.map Entry.timestamp)
      messageCount := es.length
      sessionIds := uniqueKeepFirst (sorted.map Entry.sessionId) }

/-- The pure aggregation core of `loadDailyConversationData`
(`src/data-loader.ts`, after file loading): filter by the optional
`since`/`until` date bounds, group by local date, summarize each
date-group, and sort the summaries by date string descending
(`b.date.localeCompare(a.date)`); returns the summaries together with
the filtered flat entry list. -/
def loadDailyConversationData (tz : Int) (sinceOpt untilOpt : Option String)
    (entries : List Entry) : List DailyConversation × List Entry :=
  let filtered := filterEntries tz sinceOpt untilOpt entries
  let groups := groupByDate tz filtered
  let convs := groups.filterMap (fun p => summarize tz p.1 p.2)
  let sortedConvs := convs.mergeSort (fun a b => b.date ≤ a.date)
  (sortedConvs, filtered)

/-! ## Helper lemmas -/

/-- Any sufficient fuel computes the same digit list. -/
theorem natToDigitsAux_congr :
    ∀ (f₁ f₂ n : Nat), n < f₁ → n < f₂ → natToDigitsAux f₁ n = natToDigitsAux f₂ n := by
  intro f₁
  induction f₁ with
  | zero => intro f₂ n h₁ _; omega
  | succ a ih =>
    intro f₂ n h₁ h₂
    match f₂ with
    | 0 => omega
    | b + 1 =>
      show natToDigitsAux (a + 1) n = natToDigitsAux (b + 1) n
      by_cases hn : n < 10
      · simp [natToDigitsAux, hn]
      · simp only [natToDigitsAux, hn, if_false]
        have hd : n / 10 < n := Nat.div_lt_self (by omega) (by omega)
        rw [ih b (n / 10) (by omega) (by omega)]

/-- Folding addition of per-session minutes is summation. -/
theorem foldl_add_sessionMinutes (l : List Session) (init : Int) :
    l.foldl (fun acc s => acc + sessionMinutes s) init = init + (l.map sessionMinutes).sum := by
  induction l generalizing init with
  | nil => simp
  | cons s tl ih => simp only [List.foldl_cons, List.map_cons, List.sum_cons, ih]; ring

/-- `sortTimestamps` output is sorted. -/
theorem sortTimestamps_sorted (l : List Int) : List.Sorted (· ≤ ·) (sortTimestamps l) :=
  List.sorted_mergeSort' l

/-- `sortTimestamps` is a permutation of the input. -/
theorem sortTimestamps_perm (l : List Int) : (sortTimestamps l).Perm l :=
  List.mergeSort_perm l _

/-- Two permutations of one multiset of timestamps sort identically. -/
theorem sortTimestamps_eq_of_perm {l₁ l₂ : List Int} (h : l₁.Perm l₂) :
    sortTimestamps l₁ = sortTimestamps l₂ :=
  List.eq_of_perm_of_sorted
    ((sortTimestamps_perm l₁).trans (h.trans (sortTimestamps_perm l₂).symm))
    (sortTimestamps_sorted l₁) (sortTimestamps_sorted l₂)

/-- Sorting an already-sorted timestamp list changes nothing. -/
theorem sortTimestamps_idem (l : List Int) :
    sortTimestamps (sortTimestamps l) = sortTimestamps l :=
  List.mergeSort_of_sorted ((sortTimestamps_sorted l).imp (fun h => by simpa using h))

/-- A sorted two-element list sorts to itself. -/
theorem sortTimestamps_pair {t₁ t₂ : Int} (h : t₁ ≤ t₂) :
    sortTimestamps [t₁, t₂] = [t₁, t₂] :=
  List.mergeSort_of_sorted (by simp [List.pairwise_cons, h])

/-! ## Claims -/

/-- C10: on the empty input sequence `calculateConversationTime` is
total and returns `"0m"` (by construction in Lean a `def` is total, so
no error or assertion can be raised). -/
theorem claim10_empty_entries : calculateConversationTime [] = "0m" := rfl

/-- C1: one step of the segmentation loop extends the current session
(keeping the closed sessions unchanged, moving only its end) exactly
when the next event is at most 3 minutes (180000 ms) after the current
session's end, and otherwise closes the current session and opens a
new one starting and ending at the next event's timestamp; in
particular, for a sorted pair of events, a gap of at most 3 minutes
(boundary inclusive) yields one session and a larger gap yields two
single-point sessions. -/
theorem claim1_gap_rule :
    (∀ (s e : Int) (acc : List Session) (t : Int) (rest : List Int),
      segmentLoop SESSION_GAP_MS (t :: rest) s e acc =
        if t - e ≤ SESSION_GAP_MS then segmentLoop SESSION_GAP_MS rest s t acc
        else segmentLoop SESSION_GAP_MS rest t t (acc ++ [⟨s, e⟩]))
    ∧ (∀ t₁ t₂ : Int, t₁ ≤ t₂ →
        (t₂ - t₁ ≤ SESSION_GAP_MS → sessionsOf [t₁, t₂] = [⟨t₁, t₂⟩]) ∧
        (SESSION_GAP_MS < t₂ - t₁ → sessionsOf [t₁, t₂] = [⟨t₁, t₁⟩, ⟨t₂, t₂⟩])) := by
  constructor
  · intro s e acc t rest
    rfl
  · intro t₁ t₂ h
    have hs : sessionsOf [t₁, t₂] = segmentLoop SESSION_GAP_MS [t₂] t₁ t₁ [] := by
      rw [sessionsOf, sortTimestamps_pair h]; rfl
    constructor
    · intro hgap
      rw [hs]
      simp [segmentLoop, hgap]
    · intro hgap
      rw [hs]
      simp [segmentLoop, not_le.mpr hgap, not_le_of_lt hgap]

/-- C1 witness: the boundary pair 3 minutes apart stays one session;
3 minutes + 1 ms apart splits into two. -/
theorem claim1_gap_rule_witness :
    sessionsOf [0, 180000] = [⟨0, 180000⟩] ∧
    sessionsOf [0, 180001] = [⟨0, 0⟩, ⟨180001, 180001⟩] :=
  ⟨(claim1_gap_rule.2 0 180000 (by decide)).1 (by decide),
   (claim1_gap_rule.2 0 180001 (by decide)).2 (by decide)⟩

/-- C2: for every non-empty entry list the rendered total duration of
`calculateConversationTime` is the rendering of the sum over its
sessions of `max(1, floor((stop - start) in minutes))`; a group with
exactly one event yields `"1m"`. -/
theorem claim2_duration_sum :
    (∀ l : List Int, l ≠ [] →
      calculateConversationTime l =
        renderDuration (((sessionsOf l).map sessionMinutes).sum))
    ∧ (∀ t : Int, calculateConversationTime [t] = "1m") := by
  constructor
  · intro l hl
    match l with
    | [] => exact absurd rfl hl
    | [t] =>
      have h1 : ((sessionsOf [t]).map sessionMinutes).sum = 1 := by
        simp [sessionsOf, sortTimestamps, segmentSessions, segmentLoop, sessionMinutes]
      rw [h1]
      show ("1m" : String) = renderDuration 1
      decide
    | a :: b :: rest =>
      rw [show calculateConversationTime (a :: b :: rest) =
            renderDuration ((sessionsOf (a :: b :: rest)).foldl
              (fun acc s => acc + sessionMinutes s) 0) from rfl,
          foldl_add_sessionMinutes, zero_add]
  · intro t
    rfl

/-- C2 witness: the session-sum characterization at a concrete
two-event input. -/
theorem claim2_duration_sum_witness :
    calculateConversationTime [0, 60000] =
      renderDuration (((sessionsOf [0, 60000]).map sessionMinutes).sum) :=
  claim2_duration_sum.1 [0, 60000] (by decide)

/-- C3 counterexample: for events at 2024-01-01T09:00Z and
2024-01-01T09:05Z (a 5-minute gap on one local day), segmentation does
NOT produce one session and the rendered total is NOT `"5m"`: the gap
exceeds the 3-minute threshold, so the claim as stated fails. -/
theorem claim3_example1_counterexample :
    ¬ ((sessionsOf [1704099600000, 1704099900000]).length = 1 ∧
       calculateConversationTime [1704099600000, 1704099900000] = "5m") := by
  have hs : sessionsOf [1704099600000, 1704099900000] =
      [⟨1704099600000, 1704099600000⟩, ⟨1704099900000, 1704099900000⟩] := by
    rw [sessionsOf, sortTimestamps_pair (by decide)]
    decide
  rintro ⟨h1, -⟩
  rw [hs] at h1
  exact absurd h1 (by decide)

/-- C3 amended: events at 09:00 and 09:05 on the same local day are
5 minutes apart, which exceeds the 3-minute gap threshold, so
segmentation produces two single-point sessions, each counted as the
1-minute minimum, and the rendered total duration is `"2m"`. -/
theorem claim3_example1_amended :
    sessionsOf [1704099600000, 1704099900000] =
      [⟨1704099600000, 1704099600000⟩, ⟨1704099900000, 1704099900000⟩]
    ∧ calculateConversationTime [1704099600000, 1704099900000] = "2m"
    ∧ formatDate 0 1704099600000 = formatDate 0 1704099900000 := by
  have hs : sessionsOf [1704099600000, 1704099900000] =
      [⟨1704099600000, 1704099600000⟩, ⟨1704099900000, 1704099900000⟩] := by
    rw [sessionsOf, sortTimestamps_pair (by decide)]
    decide
  refine ⟨hs, ?_, by decide⟩
  rw [show calculateConversationTime [1704099600000, 1704099900000] =
        renderDuration ((sessionsOf [1704099600000, 1704099900000]).foldl
          (fun acc s => acc + sessionMinutes s) 0) from rfl, hs]
  decide

/-- C7: segmentation is deterministic and idempotent under re-sorting,
for every gap threshold: permuting the input set does not change the
computed sessions, and sorting an already-sorted sequence again yields
the same session boundaries. -/
theorem claim7_deterministic_idempotent :
    ∀ (gap : Int) (l₁ l₂ : List Int), l₁.Perm l₂ →
      segmentSessions gap (sortTimestamps l₁) = segmentSessions gap (sortTimestamps l₂)
      ∧ segmentSessions gap (sortTimestamps (sortTimestamps l₁)) =
          segmentSessions gap (sortTimestamps l₁) := by
  intro gap l₁ l₂ h
  exact ⟨by rw [sortTimestamps_eq_of_perm h], by rw [sortTimestamps_idem]⟩

/-- C7 witness: at the 3-minute threshold, the two orderings of the
set `{0, 1}` segment identically, and re-sorting is idempotent. -/
theorem claim7_deterministic_idempotent_witness :
    segmentSessions 180000 (sortTimestamps [1, 0]) =
      segmentSessions 180000 (sortTimestamps [0, 1])
    ∧ segmentSessions 180000 (sortTimestamps (sortTimestamps [1, 0])) =
        segmentSessions 180000 (sortTimestamps [1, 0]) :=
  claim7_deterministic_idempotent 180000 [1, 0] [0, 1] (List.Perm.swap 0 1 [])

/-- C8: for a non-negative total of minutes, the rendering is
`"{m}m"` below one hour, `"{h}h"` for a positive exact number of
hours, and `"{h}h {m}m"` otherwise, with `h` the floor of the total
divided by 60 and `m` the total modulo 60. -/
theorem claim8_render_duration :
    ∀ t : Int, 0 ≤ t →
      (t < 60 → renderDuration t = intToDecimal t ++ "m")
      ∧ (60 ≤ t ∧ t % 60 = 0 → renderDuration t = intToDecimal (t / 60) ++ "h")
      ∧ (60 ≤ t ∧ t % 60 ≠ 0 →
          renderDuration t = intToDecimal (t / 60) ++ "h " ++ intToDecimal (t % 60) ++ "m") := by
  intro t _
  refine ⟨fun h => ?_, fun h => ?_, fun h => ?_⟩
  · rw [renderDuration, if_pos h]
  · simp [renderDuration, not_lt.mpr h.1, h.2]
  · simp [renderDuration, not_lt.mpr h.1, h.2]

/-- C8 witness: the three rendering branches at 5, 120 and 125
minutes. -/
theorem claim8_render_duration_witness :
    renderDuration 5 = intToDecimal 5 ++ "m"
    ∧ renderDuration 120 = intToDecimal (120 / 60) ++ "h"
    ∧ renderDuration 125 = intToDecimal (125 / 60) ++ "h " ++ intToDecimal (125 % 60) ++ "m" :=
  ⟨(claim8_render_duration 5 (by decide)).1 (by decide),
   (claim8_render_duration 120 (by decide)).2.1 (by decide),
   (claim8_render_duration 125 (by decide)).2.2 (by decide)⟩

/-- C6: aggregating the empty event set returns the empty summary
sequence (and the empty filtered list), for every timezone offset and
every combination of date bounds; as a total Lean function the
aggregator raises no error on any input. -/
theorem claim6_empty_aggregation :
    ∀ (tz : Int) (sinceOpt untilOpt : Option String),
      loadDailyConversationData tz sinceOpt untilOpt [] = ([], []) := by
  intro tz sinceOpt untilOpt
  have hf : filterEntries tz sinceOpt untilOpt [] = [] := by
    cases sinceOpt <;> cases untilOpt <;> simp [filterEntries]
  simp [loadDailyConversationData, hf, groupByDate]

/-- Inserting one entry into the grouping map grows the total of the
group sizes by one. -/
theorem addToGroup_sizes (acc : List (String × List Entry)) (d : String) (e : Entry) :
    ((addToGroup acc d e).map (fun p => p.2.length)).sum
      = ((acc.map (fun p => p.2.length)).sum) + 1 := by
  induction acc with
  | nil => simp [addToGroup]
  | cons p rest ih =>
    by_cases h : p.1 = d
    · simp [addToGroup, h]
      omega
    · simp [addToGroup, h, ih]
      omega

/-- Grouping by local date partitions the entries: group sizes sum to
the input length. -/
theorem groupByDate_sizes_aux (tz : Int) :
    ∀ (l : List Entry) (acc : List (String × List Entry)),
      (((l.foldl (fun acc e => addToGroup acc (formatDate tz e.timestamp) e) acc).map
          (fun p => p.2.length)).sum)
        = ((acc.map (fun p => p.2.length)).sum) + l.length := by
  intro l
  induction l with
  | nil => simp
  | cons e rest ih =>
    intro acc
    rw [List.foldl_cons, ih, addToGroup_sizes]
    simp only [List.length_cons]
    omega

/-- Group sizes of `groupByDate` sum to the number of entries. -/
theorem groupByDate_sizes (tz : Int) (l : List Entry) :
    (((groupByDate tz l).map (fun p => p.2.length)).sum) = l.length := by
  rw [groupByDate, groupByDate_sizes_aux]
  simp

/-- A non-empty group summarizes to `some` record whose
`messageCount` is the group size. -/
theorem summarize_some (tz : Int) (d : String) (es : List Entry) (h : es ≠ []) :
    ∃ c, summarize tz d es = some c ∧ c.messageCount = es.length := by
  unfold summarize
  rw [if_neg (by simpa using h)]
  exact ⟨_, rfl, rfl⟩

/-- Per-date summaries preserve the message counts: summing
`messageCount` over the summaries equals summing the group sizes
(empty groups are skipped but contribute zero). -/
theorem filterMap_summarize_counts (tz : Int) (gs : List (String × List Entry)) :
    (((gs.filterMap (fun p => summarize tz p.1 p.2)).map (fun c => c.messageCount)).sum)
      = ((gs.map (fun p => p.2.length)).sum) := by
  induction gs with
  | nil => simp
  | cons p rest ih =>
    rw [List.filterMap_cons]
    by_cases h : p.2.isEmpty
    · have hnil : p.2 = [] := by simpa using h
      have hs : summarize tz p.1 p.2 = none := by simp [summarize, hnil]
      rw [hs]
      simp [ih, hnil]
    · obtain ⟨c, hc, hcount⟩ := summarize_some tz p.1 p.2 (by simpa using h)
      rw [hc]
      simp [ih, hcount]

/-- C4: the sum of `messageCount` over all daily summaries equals the
number of events in the filtered input, because grouping by local date
partitions the filtered events. -/
theorem claim4_messageCount_partition :
    ∀ (tz : Int) (sinceOpt untilOpt : Option String) (l : List Entry),
      (((loadDailyConversationData tz sinceOpt untilOpt l).1.map
          (fun c => c.messageCount)).sum)
        = (filterEntries tz sinceOpt untilOpt l).length := by
  intro tz sinceOpt untilOpt l
  show ((((groupByDate tz (filterEntries tz sinceOpt untilOpt l)).filterMap
      (fun p => summarize tz p.1 p.2)).mergeSort (fun a b => b.date ≤ a.date)).map
      (fun c => c.messageCount)).sum = _
  rw [List.Perm.sum_eq (List.Perm.map _ (List.mergeSort_perm _ _))]
  rw [filterMap_summarize_counts, groupByDate_sizes]

/-- C5: the date-range filter keeps exactly the events whose local
`YYYYMMDD` date key lies in the inclusive interval given by the
bounds: an event is retained iff it is in the input and no provided
`since` bound exceeds its date key and its date key does not exceed
any provided `until` bound (so an event whose local date equals
`until` is retained, and an absent bound imposes no constraint). -/
theorem claim5_date_range_filter :
    ∀ (tz : Int) (sinceOpt untilOpt : Option String) (l : List Entry) (e : Entry),
      e ∈ filterEntries tz sinceOpt untilOpt l ↔
        e ∈ l ∧ (∀ s ∈ sinceOpt, s ≤ dateKey tz e.timestamp)
              ∧ (∀ u ∈ untilOpt, dateKey tz e.timestamp ≤ u) := by
  intro tz sinceOpt untilOpt l e
  cases sinceOpt <;> cases untilOpt <;>
    simp [filterEntries, keepEntry, List.mem_filter, not_lt, and_assoc]

/-- Case analysis for lexicographic comparison at a cons cell. -/
theorem lex_cons_cases {α : Type} {r : α → α → Prop} {a b : α} {l₁ l₂ : List α} :
    List.Lex r (a :: l₁) (b :: l₂) ↔ r a b ∨ (a = b ∧ List.Lex r l₁ l₂) := by
  constructor
  · intro h
    cases h with
    | cons h => exact Or.inr ⟨rfl, h⟩
    | rel h => exact Or.inl h
  · rintro (h | ⟨rfl, h⟩)
    · exact List.Lex.rel h
    · exact List.Lex.cons h

/-- Comparing equal-width blocks: a lexicographic comparison of two
lists with equal-length prefixes decides on the prefixes first and
falls through to the tails only when the prefixes coincide. -/
theorem lex_append_iff {α : Type} {r : α → α → Prop} :
    ∀ {u₁ u₂ : List α} (t₁ t₂ : List α), u₁.length = u₂.length →
      (List.Lex r (u₁ ++ t₁) (u₂ ++ t₂) ↔
        (List.Lex r u₁ u₂ ∨ (u₁ = u₂ ∧ List.Lex r t₁ t₂))) := by
  intro u₁
  induction u₁ with
  | nil =>
    intro u₂ t₁ t₂ h
    match u₂ with
    | [] => simp
    | b :: u₂ => simp at h
  | cons a u₁ ih =>
    intro u₂ t₁ t₂ h
    match u₂ with
    | [] => simp at h
    | b :: u₂ =>
      simp only [List.cons_append]
      rw [lex_cons_cases, lex_cons_cases, ih t₁ t₂ (by simpa using h)]
      simp only [List.cons.injEq]
      tauto

/-- Digit characters compare like their digits. -/
theorem digitChar_lt_iff :
    ∀ a, a < 10 → ∀ b, b < 10 → (digitChar a < digitChar b ↔ a < b) := by decide

/-- Digit characters are equal exactly for equal digits. -/
theorem digitChar_eq_iff :
    ∀ a, a < 10 → ∀ b, b < 10 → (digitChar a = digitChar b ↔ a = b) := by decide

/-- A single-digit number renders as its digit character. -/
theorem natToDigits_lt_ten {n : Nat} (h : n < 10) : natToDigits n = [digitChar n] := by
  simp [natToDigits, natToDigitsAux, h]

/-- Peeling the last decimal digit of a multi-digit number. -/
theorem natToDigits_step {n : Nat} (h : 10 ≤ n) :
    natToDigits n = natToDigits (n / 10) ++ [digitChar (n % 10)] := by
  show natToDigitsAux (n + 1) n = natToDigitsAux (n / 10 + 1) (n / 10) ++ [digitChar (n % 10)]
  rw [natToDigitsAux]
  rw [if_neg (by omega)]
  rw [natToDigitsAux_congr n (n / 10 + 1) (n / 10) (by omega) (by omega)]

/-- A four-digit year renders as its four digit characters. -/
theorem digits4 {y : Nat} (h1 : 1000 ≤ y) (h2 : y ≤ 9999) :
    natToDigits y = [digitChar (y / 1000), digitChar (y / 100 % 10),
      digitChar (y / 10 % 10), digitChar (y % 10)] := by
  have e1 : y / 10 / 10 = y / 100 := by omega
  have e2 : y / 100 / 10 = y / 1000 := by omega
  have e3 : y / 10 % 10 = y % 100 / 10 := by omega
  rw [natToDigits_step (by omega : 10 ≤ y),
      natToDigits_step (by omega : 10 ≤ y / 10), e1,
      natToDigits_step (by omega : 10 ≤ y / 100), e2,
      natToDigits_lt_ten (by omega : y / 1000 < 10)]
  simp

/-- The zero-padded two-digit rendering, as characters. -/
theorem pad2_toList {m : Nat} (h : m ≤ 99) :
    (pad2 m).toList = [digitChar (m / 10), digitChar (m % 10)] := by
  by_cases hm : m < 10
  · have e0 : m / 10 = 0 := by omega
    have e1 : m % 10 = m := by omega
    have h0 : digitChar 0 = '0' := by decide
    rw [pad2, if_pos hm, e0, e1, h0]
    rfl
  · rw [pad2, if_neg hm]
    show natToDigits m = _
    rw [natToDigits_step (by omega : 10 ≤ m),
        natToDigits_lt_ten (by omega : m / 10 < 10)]
    rfl

/-- The four-digit year blocks compare lexicographically exactly as
the years compare numerically. -/
theorem year_block {y1 y2 : Nat} (b11 : 1000 ≤ y1) (b12 : y1 ≤ 9999)
    (b21 : 1000 ≤ y2) (b22 : y2 ≤ 9999) :
    (List.Lex (· < ·) (natToDigits y1) (natToDigits y2) ↔ y1 < y2)
    ∧ (natToDigits y1 = natToDigits y2 ↔ y1 = y2) := by
  rw [digits4 b11 b12, digits4 b21 b22]
  constructor
  · rw [lex_cons_cases, lex_cons_cases, lex_cons_cases, lex_cons_cases]
    simp only [List.Lex.not_nil_right, and_false, or_false]
    rw [digitChar_lt_iff _ (by omega) _ (by omega),
        digitChar_eq_iff _ (by omega) _ (by omega),
        digitChar_lt_iff _ (by omega) _ (by omega),
        digitChar_eq_iff _ (by omega) _ (by omega),
        digitChar_lt_iff _ (by omega) _ (by omega),
        digitChar_eq_iff _ (by omega) _ (by omega),
        digitChar_lt_iff _ (by omega) _ (by omega)]
    omega
  · simp only [List.cons.injEq, and_true]
    rw [digitChar_eq_iff _ (by omega) _ (by omega),
        digitChar_eq_iff _ (by omega) _ (by omega),
        digitChar_eq_iff _ (by omega) _ (by omega),
        digitChar_eq_iff _ (by omega) _ (by omega)]
    omega

/-- The zero-padded two-digit blocks compare lexicographically exactly
as the numbers compare numerically. -/
theorem pad2_block {m1 m2 : Nat} (h1 : m1 ≤ 99) (h2 : m2 ≤ 99) :
    (List.Lex (· < ·) (pad2 m1).toList (pad2 m2).toList ↔ m1 < m2)
    ∧ ((pad2 m1).toList = (pad2 m2).toList ↔ m1 = m2) := by
  rw [pad2_toList h1, pad2_toList h2]
  constructor
  · rw [lex_cons_cases, lex_cons_cases]
    simp only [List.Lex.not_nil_right, and_false, or_false]
    rw [digitChar_lt_iff _ (by omega) _ (by omega),
        digitChar_eq_iff _ (by omega) _ (by omega),
        digitChar_lt_iff _ (by omega) _ (by omega)]
    omega
  · simp only [List.cons.injEq, and_true]
    rw [digitChar_eq_iff _ (by omega) _ (by omega),
        digitChar_eq_iff _ (by omega) _ (by omega)]
    omega

/-- `intToDecimal` on a natural number is the plain digit string. -/
theorem intToDecimal_ofNat (y : Nat) :
    intToDecimal (y : Int) = String.mk (natToDigits y) := by
  rw [intToDecimal, if_neg (by omega)]
  norm_num

/-- Character decomposition of a rendered `YYYY-MM-DD` date. -/
theorem dateString_toList (y m d : Nat) :
    (dateString (y : Int) m d).toList =
      natToDigits y ++ ('-' :: ((pad2 m).toList ++ ('-' :: (pad2 d).toList))) := by
  show (intToDecimal (y : Int) ++ "-" ++ pad2 m ++ "-" ++ pad2 d).data = _
  rw [intToDecimal_ofNat]
  simp [String.data_append]

/-- Lexicographic `<` on rendered dates with four-digit years is the
lexicographic order on the (year, month, day) triples, i.e.
chronological order. -/
theorem dateString_lt_iff {y1 m1 d1 y2 m2 d2 : Nat}
    (by11 : 1000 ≤ y1) (by12 : y1 ≤ 9999) (by21 : 1000 ≤ y2) (by22 : y2 ≤ 9999)
    (bm1 : m1 ≤ 99) (bm2 : m2 ≤ 99) (bd1 : d1 ≤ 99) (bd2 : d2 ≤ 99) :
    (dateString (y1 : Int) m1 d1 < dateString (y2 : Int) m2 d2) ↔
      (y1 < y2 ∨ (y1 = y2 ∧ (m1 < m2 ∨ (m1 = m2 ∧ d1 < d2)))) := by
  have hconv : ∀ l₁ l₂ : List Char, l₁ < l₂ ↔ List.Lex (· < ·) l₁ l₂ := fun _ _ => Iff.rfl
  rw [String.lt_iff_toList_lt, hconv, dateString_toList, dateString_toList,
      lex_append_iff _ _ (by rw [digits4 by11 by12, digits4 by21 by22]; rfl),
      lex_cons_cases,
      lex_append_iff _ _ (by rw [pad2_toList bm1, pad2_toList bm2]; rfl),
      lex_cons_cases,
      (year_block by11 by12 by21 by22).1, (year_block by11 by12 by21 by22).2,
      (pad2_block bm1 bm2).1, (pad2_block bm1 bm2).2,
      (pad2_block bd1 bd2).1]
  simp

/-- C9: the daily summary sequence is sorted by date string descending
(every later summary's date is lexicographically at most every earlier
one's), and for the fixed-width `YYYY-MM-DD` rendering with four-digit
years, lexicographic string comparison coincides with chronological
order, i.e. with the lexicographic order on (year, month, day). -/
theorem claim9_sorted_descending :
    (∀ (tz : Int) (sinceOpt untilOpt : Option String) (l : List Entry),
      List.Pairwise (fun a b => b.date ≤ a.date)
        (loadDailyConversationData tz sinceOpt untilOpt l).1)
    ∧ (∀ y1 m1 d1 y2 m2 d2 : Nat,
        1000 ≤ y1 → y1 ≤ 9999 → 1000 ≤ y2 → y2 ≤ 9999 →
        1 ≤ m1 → m1 ≤ 12 → 1 ≤ m2 → m2 ≤ 12 →
        1 ≤ d1 → d1 ≤ 31 → 1 ≤ d2 → d2 ≤ 31 →
        (dateString (y1 : Int) m1 d1 ≤ dateString (y2 : Int) m2 d2 ↔
          (y1 < y2 ∨ (y1 = y2 ∧ (m1 < m2 ∨ (m1 = m2 ∧ d1 ≤ d2)))))) := by
  constructor
  · intro tz sinceOpt untilOpt l
    show List.Pairwise _
      (((groupByDate tz (filterEntries tz sinceOpt untilOpt l)).filterMap
        (fun p => summarize tz p.1 p.2)).mergeSort (fun a b => b.date ≤ a.date))
    refine List.Pairwise.imp (fun h => ?_) (List.sorted_mergeSort ?_ ?_ _)
    · simpa using h
    · intro a b c h1 h2
      simp only [decide_eq_true_eq] at h1 h2 ⊢
      exact le_trans h2 h1
    · intro a b
      simpa using le_total b.date a.date
  · intro y1 m1 d1 y2 m2 d2 hy11 hy12 hy21 hy22 hm11 hm12 hm21 hm22 hd11 hd12 hd21 hd22
    rw [← not_lt,
        dateString_lt_iff hy21 hy22 hy11 hy12 (by omega) (by omega) (by omega) (by omega)]
    omega

/-- C9 witness: a concrete chronological pair of rendered dates is
ordered lexicographically accordingly. -/
theorem claim9_sorted_descending_witness :
    dateString ((2024 : Nat) : Int) 12 31 ≤ dateString ((2025 : Nat) : Int) 1 1 :=
  (claim9_sorted_descending.2 2024 12 31 2025 1 1
    (by decide) (by decide) (by decide) (by decide) (by decide) (by decide)
    (by decide) (by decide) (by decide) (by decide) (by decide) (by decide)).mpr
    (Or.inl (by decide))
